import Mathlib

set_option maxHeartbeats 1000000

/-!
Shallow embedding of the UEDP_JH core (src/Core/src/backend) and proofs
about it.  Machine integers are modelled as `Nat`/`Int` with explicit
`% 2^64` (resp. `% 2^32`) where the Rust code wraps.  The OS surface
(`ReadProcessMemory`, `VirtualQueryEx`) and the interned-name pool are
modelled as oracles: functions the embedded code consumes exactly the
way the Rust code consumes the corresponding calls.
-/

/-- `usize::wrapping_add` on 64-bit targets. -/
def wadd (a b : Nat) : Nat := (a + b) % 2 ^ 64

/-- `usize::wrapping_add(i as usize)` where `i` may be a sign-extended
negative displacement: add over `Int` and reduce modulo `2^64`. -/
def waddI (a : Nat) (d : Int) : Nat := ((((a : Int) + d) % (2 ^ 64)).toNat)

/-- `i32 as u32` (two's-complement reinterpretation). -/
def asU32 (i : Int) : Nat := ((i % (2 ^ 32)).toNat)

/-- Does `pat` occur at the head of `s`?  (Helper for `str::contains`.) -/
def strHeadMatch : List Char → List Char → Bool
  | [], _ => true
  | _ :: _, [] => false
  | a :: as, b :: bs => a == b && strHeadMatch as bs

/-- Does `pat` occur anywhere in `s`?  (Helper for `str::contains`.) -/
def strContainsAux (pat : List Char) : List Char → Bool
  | [] => pat.isEmpty
  | b :: bs => strHeadMatch pat (b :: bs) || strContainsAux pat bs

/-- Rust `str::contains` for literal patterns. -/
def strContains (s pat : String) : Bool := strContainsAux pat.data s.data

/-- Rust `String::len`: length in UTF-8 bytes. -/
def strLen (s : String) : Nat := s.utf8ByteSize

-- ─── Memory / name-pool oracle ───────────────────────────────────
/-- The read surface the object-cache code consumes:
`try_read_pointer` (8-byte read as `u64`), `try_read::<i32>`,
`try_read::<u8>` and `FNamePool::get_name` (`Ok` mapped to `some`).
`fmtF32`/`fmtF64` stand for `format!("{:.3}", read_f32(..))` style
floating-point rendering, which is not representable exactly and is
treated as an oracle of the address. -/
structure Env where
  readPtr : Nat → Option Nat
  readI32 : Nat → Option Int
  readU8 : Nat → Option Nat
  getName : Nat → Option String
  fmtF32 : Nat → String
  fmtF64 : Nat → String

-- ─── UEOffset (src/Core/src/backend/unreal/offsets.rs) ───────────
/-- The structural offsets `ObjectManager` reads through (the fields of
`UEOffset` that the embedded functions touch). -/
structure UEOffset where
  id : Nat
  class' : Nat
  fname_index : Nat
  outer : Nat
  member_type_offset : Nat
  member_type : Nat
  member_fname_index : Nat
deriving Repr, DecidableEq

/-- `UEOffset::default()` (the UE5 default profile), restricted to the
fields above. -/
def UEOffset.default : UEOffset :=
  { id := 0xC, class' := 0x10, fname_index := 0x18, outer := 0x20,
    member_type_offset := 0x8, member_type := 0x0, member_fname_index := 0x20 }

-- ─── ObjectData / ObjectManager (object_array.rs) ────────────────
/-- Cached object data (struct `ObjectData`). -/
structure ObjectData where
  address : Nat
  id : Int
  name : String
  type_name : String
  full_name : String
  outer : Nat
  class_ptr : Nat
deriving Repr, DecidableEq

/-- `ObjectData::empty()`. -/
def ObjectData.empty : ObjectData :=
  { address := 0, id := 0, name := "", type_name := "", full_name := "",
    outer := 0, class_ptr := 0 }

/-- The two-tier cache (struct `ObjectManager`).  The concurrent
`DashMap`s are modelled as association lists with replace-on-insert;
the atomic counter as a `Nat`. -/
structure ObjectManager where
  cache_by_address : List (Nat × ObjectData)
  cache_by_id : List (Int × Nat)
  total_object_count : Nat
deriving Repr, DecidableEq

/-- `ObjectManager::new()`. -/
def ObjectManager.new : ObjectManager :=
  { cache_by_address := [], cache_by_id := [], total_object_count := 0 }

/-- `DashMap::insert`: replace the binding for `k` (keys stay unique). -/
def insertA (l : List (Nat × ObjectData)) (k : Nat) (v : ObjectData) :
    List (Nat × ObjectData) :=
  (k, v) :: l.filter (fun p => p.1 ≠ k)

/-- `DashMap::insert` for the id map. -/
def insertI (l : List (Int × Nat)) (k : Int) (v : Nat) : List (Int × Nat) :=
  (k, v) :: l.filter (fun p => p.1 ≠ k)

/-- `ObjectManager::get_basic_info_1` — the property-style path: type via
the `member_type_offset → member_type` chain.  Returns the success flag
together with the updated record. -/
def get_basic_info_1 (env : Env) (off : UEOffset) (address : Nat)
    (obj : ObjectData) : Bool × ObjectData :=
  let obj := { obj with id := (env.readI32 (wadd address off.id)).getD 0 }
  let obj := { obj with outer := (env.readPtr (wadd address off.outer)).getD 0 }
  let type_ptr := (env.readPtr (wadd address off.member_type_offset)).getD 0
  match env.readI32 (wadd type_ptr off.member_type) with
  | none => (false, obj)
  | some type_id =>
    let obj := { obj with type_name := (env.getName (asU32 type_id)).getD "" }
    if obj.type_name = "" then (false, obj)
    else
      let name_id := (env.readI32 (wadd address off.member_fname_index)).getD 0
      let obj := { obj with name := (env.getName (asU32 name_id)).getD "" }
      if obj.name = "" then (decide (obj.type_name ≠ ""), obj)
      else (true, obj)

/-- `ObjectManager::get_basic_info_2` — the standard path: type via the
class pointer's fname index. -/
def get_basic_info_2 (env : Env) (off : UEOffset) (address : Nat)
    (obj : ObjectData) : Bool × ObjectData :=
  let obj := { obj with class_ptr := (env.readPtr (wadd address off.class')).getD 0 }
  match env.readI32 (wadd obj.class_ptr off.fname_index) with
  | none => (false, obj)
  | some type_id =>
    let obj := { obj with type_name := (env.getName (asU32 type_id)).getD "" }
    let name_id := (env.readI32 (wadd address off.fname_index)).getD 0
    let obj := { obj with name := (env.getName (asU32 name_id)).getD "" }
    let obj := { obj with id := (env.readI32 (wadd address off.id)).getD 0 }
    let obj := { obj with outer := (env.readPtr (wadd address off.outer)).getD 0 }
    (true, obj)

/-- The separator choice inside `resolve_full_name`:
`":"` iff the accumulated (child) type is Property/Function-like and the
outer type is not, else `"."`. -/
def sepFor (prev_type outer_type : String) : String :=
  if (strContains prev_type "Property" || strContains prev_type "Function")
      && !(strContains outer_type "Property" || strContains outer_type "Function")
  then ":" else "."

/-- The `while` loop of `ObjectManager::resolve_full_name`.  `fuel`
models the remaining concat budget (`max_concat - concat_count`, 10 at
entry); one unit is consumed per iteration, exactly like
`concat_count += 1` at the top of the loop. -/
def resolve_full_name_loop (env : Env) (off : UEOffset) (fuel : Nat)
    (mgr : ObjectManager) (result prev_type : String) (current_outer : Nat) :
    String × ObjectManager :=
  match fuel with
  | 0 => (result, mgr)
  | fuel + 1 =>
    if 0x10000 < current_outer then
      match mgr.cache_by_address.lookup current_outer with
      | some cached =>
        let sep := sepFor prev_type cached.type_name
        resolve_full_name_loop env off fuel mgr
          (cached.name ++ sep ++ result) cached.type_name cached.outer
      | none =>
        match env.readPtr current_outer with
        | none => (result, mgr)
        | some _ =>
          let outer0 := { ObjectData.empty with address := current_outer }
          let r1 := get_basic_info_1 env off current_outer outer0
          let outer2 := if r1.1 then r1.2
                        else (get_basic_info_2 env off current_outer r1.2).2
          if outer2.type_name = "" || outer2.name = "" then (result, mgr)
          else
            let mgr := { mgr with
              cache_by_address := insertA mgr.cache_by_address current_outer outer2 }
            let sep := sepFor prev_type outer2.type_name
            resolve_full_name_loop env off fuel mgr
              (outer2.name ++ sep ++ result) outer2.type_name outer2.outer
    else (result, mgr)

/-- `ObjectManager::resolve_full_name`: iterative outer-chain walk with a
concat cap of 10; only `full_name` of the argument record changes. -/
def resolve_full_name (env : Env) (off : UEOffset) (mgr : ObjectManager)
    (obj : ObjectData) : ObjectData × ObjectManager :=
  let r := resolve_full_name_loop env off 10 mgr obj.name obj.type_name obj.outer
  ({ obj with full_name := r.1 }, r.2)

/-- The insert stage of `ObjectManager::try_save_object`, parameterised
by the validated record `obj`: type checks, early return for
`"None"`/`"InvalidName"`, the two-tier insert, outer-chain resolution
and the counter bump.  (`save_checked` and `save_new_object` below
compose the phases back into the source's control flow; the phases are
split purely for proof structuring.) -/
def save_valid (env : Env) (off : UEOffset) (mgr : ObjectManager)
    (address : Nat) (obj : ObjectData) : Option ObjectData × ObjectManager :=
  if obj.type_name = "" || 100 < strLen obj.type_name then (none, mgr)
  else if obj.name = "None" || obj.name = "InvalidName" then (some obj, mgr)
  else
    let mgr := { mgr with
      cache_by_address := insertA mgr.cache_by_address address obj }
    let mgr :=
      if 0 < obj.id && asU32 obj.id < 0xFFFFFFFF
          && !strContains obj.type_name "Property" then
        { mgr with cache_by_id := insertI mgr.cache_by_id obj.id address }
      else mgr
    let r :=
      if !strContains obj.type_name "Property" && obj.address ≠ obj.outer then
        resolve_full_name env off mgr obj
      else (obj, mgr)
    let mgr := { r.2 with
      cache_by_address := insertA r.2.cache_by_address address r.1,
      total_object_count := r.2.total_object_count + 1 }
    (some r.1, mgr)

/-- Failure check of the basic-info phase plus the name substitution
(`if Name.empty() { Name = "InvalidName" }`), then the insert stage. -/
def save_checked (env : Env) (off : UEOffset) (mgr : ObjectManager)
    (address : Nat) (r2 : Bool × ObjectData) : Option ObjectData × ObjectManager :=
  if !r2.1 then (none, mgr)
  else
    let obj := { r2.2 with address := address }
    let obj := if obj.name = "" then { obj with name := "InvalidName" } else obj
    save_valid env off mgr address obj

/-- Tier 2 of `ObjectManager::try_save_object` â the code that runs after
the guards and the cache check came up empty: basic info (path 1, then
path 2 on failure), then validation and insertion. -/
def save_new_object (env : Env) (off : UEOffset) (mgr : ObjectManager)
    (address : Nat) : Option ObjectData × ObjectManager :=
  let r1 := get_basic_info_1 env off address { ObjectData.empty with address := address }
  save_checked env off mgr address
    (if r1.1 then r1 else get_basic_info_2 env off address r1.2)

/-- `ObjectManager::try_save_object`: guards, cache check, then tier 2. -/
def try_save_object (env : Env) (off : UEOffset) (mgr : ObjectManager)
    (address depth max_depth : Nat) : Option ObjectData × ObjectManager :=
  if address < 0x10000 then (none, mgr)
  else if max_depth ≤ depth then (none, mgr)
  else if (env.readPtr address).isNone then (none, mgr)
  else
    match mgr.cache_by_address.lookup address with
    | some cached => (some cached, mgr)
    | none => save_new_object env off mgr address

-- ─── Concrete environments for the cache claims ──────────────────
/-- A trivial environment: every read fails, every name is unknown. -/
def envTrivial : Env :=
  { readPtr := fun _ => none, readI32 := fun _ => none, readU8 := fun _ => none,
    getName := fun _ => none, fmtF32 := fun _ => "", fmtF64 := fun _ => "" }

/-- A type name of 101 bytes (the name pool accepts lengths up to 200). -/
def longType : String := String.mk (List.replicate 101 'T')

/-- Memory with two objects: `A = 0x500000` (type `"Class"`, name `"A"`,
outer `B`) and `B = 0x600000` (type `longType` — 101 bytes — name `"B"`,
outer null).  Both resolve through the path-1 reads. -/
def envAB : Env :=
  { readPtr := fun a =>
      if a = 0x500000 then some 1
      else if a = 0x500008 then some 0x700000
      else if a = 0x500020 then some 0x600000
      else if a = 0x600000 then some 1
      else if a = 0x600008 then some 0x700100
      else if a = 0x600020 then some 0
      else none,
    readI32 := fun a =>
      if a = 0x50000C then some 1
      else if a = 0x500020 then some 101
      else if a = 0x700000 then some 100
      else if a = 0x60000C then some 2
      else if a = 0x600020 then some 103
      else if a = 0x700100 then some 102
      else none,
    readU8 := fun _ => none,
    getName := fun i =>
      if i = 100 then some "Class"
      else if i = 101 then some "A"
      else if i = 102 then some longType
      else if i = 103 then some "B"
      else none,
    fmtF32 := fun _ => "", fmtF64 := fun _ => "" }

/-- Memory with one property node `X = 0x800000` (type `"ObjectProperty"`,
name `"Owner"`, outer `A = 0x500000`). -/
def envX : Env :=
  { readPtr := fun a =>
      if a = 0x800000 then some 1
      else if a = 0x800008 then some 0x700200
      else if a = 0x800020 then some 0x500000
      else none,
    readI32 := fun a =>
      if a = 0x80000C then some 7
      else if a = 0x800020 then some 111
      else if a = 0x700200 then some 110
      else none,
    readU8 := fun _ => none,
    getName := fun i =>
      if i = 110 then some "ObjectProperty"
      else if i = 111 then some "Owner"
      else none,
    fmtF32 := fun _ => "", fmtF64 := fun _ => "" }

/-- A catalog already holding the record of `A = 0x500000`
(type `"Class"`, name `"Actor"`, fullName `"/Script/Engine.Actor"`). -/
def catA : ObjectManager :=
  { cache_by_address :=
      [(0x500000,
        { address := 0x500000, id := 1, name := "Actor", type_name := "Class",
          full_name := "/Script/Engine.Actor", outer := 0x900000, class_ptr := 0 })],
    cache_by_id := [(1, 0x500000)],
    total_object_count := 1 }

/-- Boolean form of the cached-type invariant of the claim: every cached
record has a non-empty `type_name` of at most 100 bytes. -/
def catalogTypeLenOk (mgr : ObjectManager) : Bool :=
  mgr.cache_by_address.all
    (fun p => !(p.2.type_name == "") && decide (strLen p.2.type_name ≤ 100))

/-- Number of cached records whose name is neither `"None"` nor
`"InvalidName"`. -/
def validNameCount (mgr : ObjectManager) : Nat :=
  (mgr.cache_by_address.filter
    (fun p => !(p.2.name == "None") && !(p.2.name == "InvalidName"))).length

-- ─── Claim C5 ────────────────────────────────────────────────────
/-- Invariant: every cached record whose `type_name` contains
`"Property"` has an empty `full_name` (the code never composes full
names for property-typed records). -/
def PropsHaveEmptyFull (mgr : ObjectManager) : Prop :=
  ∀ p ∈ mgr.cache_by_address,
    strContains p.2.type_name "Property" = true → p.2.full_name = ""

-- ─── Claim C3: extract_package_name (commands/package.rs) ────────
/-- Rust `str::find(char)`: index of the first occurrence.  The embedding
works at char level; since `'/'`, `'.'`, `':'` are ASCII and all cuts
happen at found positions, the char-level slices coincide with the
source's byte-level slices for every UTF-8 input. -/
def findChar (c : Char) : List Char → Option Nat
  | [] => none
  | a :: as => if a = c then some 0 else (findChar c as).map (· + 1)

/-- `extract_package_name`: substring from the first `/` up to the first
`/` after the second `/` if any, else the first `.` after the second `/`,
else the first `:` after the second `/`, else the rest of the string;
empty when the input has fewer than two `/`. -/
def extract_package_name (input : String) : String :=
  let cs := input.data
  match findChar '/' cs with
  | none => ""
  | some first_slash =>
    match findChar '/' (cs.drop (first_slash + 1)) with
    | none => ""
    | some i2 =>
      let second_slash := first_slash + 1 + i2
      match findChar '/' (cs.drop (second_slash + 1)) with
      | some i3 =>
        String.mk ((cs.drop first_slash).take (second_slash + 1 + i3 - first_slash))
      | none =>
        match findChar '.' (cs.drop (second_slash + 1)) with
        | some i4 =>
          String.mk ((cs.drop first_slash).take (second_slash + 1 + i4 - first_slash))
        | none =>
          match findChar ':' (cs.drop (second_slash + 1)) with
          | some i5 =>
            String.mk ((cs.drop first_slash).take (second_slash + 1 + i5 - first_slash))
          | none => String.mk (cs.drop first_slash)

-- ─── Claim C4: Memory reads (os/memory.rs) ───────────────────────
/-- One uppercase hex digit. -/
def hexDigitChar (n : Nat) : Char :=
  if n < 10 then Char.ofNat (48 + n) else Char.ofNat (55 + n)

def toHexAux : Nat → Nat → List Char → List Char
  | 0, _, acc => acc
  | f + 1, n, acc =>
    if n = 0 then acc else toHexAux f (n / 16) (hexDigitChar (n % 16) :: acc)

/-- Rust `format!("{:X}", n)`: uppercase hex, no leading zeros. -/
def natToHex (n : Nat) : String :=
  if n = 0 then "0" else String.mk (toHexAux 64 n [])

/-- The outputs of the foreign `ReadProcessMemory(handle, addr, buf,
size, &bytes_read)` call, as a function of `(addr, size)`: the success
flag, the reported `bytes_read`, and the buffer contents after the call.
The program can observe nothing else about the call. -/
structure RpmOracle where
  ok : Nat → Nat → Bool
  bytesRead : Nat → Nat → Nat
  buf : Nat → Nat → List Nat

/-- `Memory::read_bytes`: `Ok(buffer)` iff the call succeeded **and**
`bytes_read > 0` (not: `bytes_read == size`). -/
def read_bytes (m : RpmOracle) (address size : Nat) : Except String (List Nat) :=
  if m.ok address size && decide (0 < m.bytesRead address size) then
    Except.ok (m.buf address size)
  else Except.error ("Failed to read memory at 0x" ++ natToHex address)

/-- `Memory::try_read::<T>` at byte level (`size = sizeof(T)`): `some`
iff the call succeeded and `bytes_read == size`. -/
def try_read (m : RpmOracle) (address size : Nat) : Option (List Nat) :=
  if m.ok address size && decide (m.bytesRead address size = size) then
    some (m.buf address size)
  else none

/-- An OS reporting success with a 1-byte partial read everywhere. -/
def partialOracle : RpmOracle :=
  { ok := fun _ _ => true, bytesRead := fun _ _ => 1,
    buf := fun _ size => List.replicate size 0 }

-- ─── Claim C8: RIP-relative resolution (unreal/dumper.rs) ────────
/-- `BaseAddressDumper::resolve_rip`: read the 32-bit signed
displacement at `instr_addr + disp_offset`, then
`(instr_addr + instr_len).wrapping_add_signed(disp)`. -/
def resolve_rip (env : Env) (instr_addr disp_offset instr_len : Nat) :
    Except String Nat :=
  match env.readI32 (wadd instr_addr disp_offset) with
  | none => Except.error
      ("Failed to read generic type at 0x" ++ natToHex (wadd instr_addr disp_offset))
  | some disp => Except.ok (waddI (wadd instr_addr instr_len) disp)

/-- Memory with a single i32 value `-2` at `0x1003`. -/
def envRip : Env :=
  { envTrivial with readI32 := fun a => if a = wadd 0x1000 3 then some (-2) else none }

-- ─── Claim C9: signature parsing and scan (os/scanner.rs) ────────
/-- Rust `str::split_whitespace` (ASCII whitespace), accumulating runs
of non-whitespace characters and discarding empty tokens. -/
def splitWsAux : List Char → List Char → List String
  | [], acc => if acc.isEmpty then [] else [String.mk acc.reverse]
  | c :: cs, acc =>
    if c.isWhitespace then
      if acc.isEmpty then splitWsAux cs []
      else String.mk acc.reverse :: splitWsAux cs []
    else splitWsAux cs (c :: acc)

def sigTokens (s : String) : List String := splitWsAux s.data []

def hexDigitVal (c : Char) : Option Nat :=
  if '0' ≤ c ∧ c ≤ '9' then some (c.toNat - 48)
  else if 'a' ≤ c ∧ c ≤ 'f' then some (c.toNat - 87)
  else if 'A' ≤ c ∧ c ≤ 'F' then some (c.toNat - 55)
  else none

/-- Digit loop of `u8::from_str_radix(_, 16)`: checked accumulation,
any non-digit or overflow past 255 fails. -/
def parseHexDigits : List Char → Nat → Option Nat
  | [], acc => some acc
  | c :: cs, acc =>
    match hexDigitVal c with
    | none => none
    | some d =>
      let v := acc * 16 + d
      if v < 256 then parseHexDigits cs v else none

/-- `u8::from_str_radix(t, 16).ok()`: empty input fails, one leading `+`
is allowed (with a non-empty rest), `-` is not a digit for unsigned. -/
def parseHexU8 (t : String) : Option Nat :=
  match t.data with
  | [] => none
  | '+' :: rest => if rest.isEmpty then none else parseHexDigits rest 0
  | l => parseHexDigits l 0

/-- `Scanner::parse_signature`: each whitespace-separated token becomes
`none` for `?`/`??` and otherwise the parsed hex byte — a malformed
token silently becomes a wildcard (`none`), never an error. -/
def parse_signature (signature : String) : List (Option Nat) :=
  (sigTokens signature).map
    (fun s => if s = "?" ∨ s = "??" then none else parseHexU8 s)

/-- Result of the foreign `VirtualQueryEx` call at an address (`none`
models a zero return). -/
structure MemBasicInfo where
  state_is_commit : Bool
  protect : Nat
  region_size : Nat

structure VmQuery where
  vq : Nat → Option MemBasicInfo

/-- Region enumeration loop of `Scanner::scan`: walk from `start` to
`end` by region size, keeping committed regions whose protection has
neither `PAGE_NOACCESS` (0x1) nor `PAGE_GUARD` (0x100).  `fuel` bounds
the number of loop iterations (the source relies on the OS reporting
non-zero region sizes for termination). -/
def collectRegions (q : VmQuery) (fuel current end_addr : Nat) :
    List (Nat × Nat) :=
  match fuel with
  | 0 => []
  | f + 1 =>
    if current < end_addr then
      match q.vq current with
      | none => []
      | some mbi =>
        let rest := collectRegions q f (wadd current mbi.region_size) end_addr
        if mbi.state_is_commit && decide (mbi.protect &&& 0x1 = 0)
            && decide (mbi.protect &&& 0x100 = 0) then
          (current, mbi.region_size) :: rest
        else rest
    else []

/-- Wildcard-aware comparison of the pattern against a buffer suffix. -/
def patMatch : List (Option Nat) → List Nat → Bool
  | [], _ => true
  | _ :: _, [] => false
  | p :: ps, b :: bs =>
    (match p with | none => true | some v => v == b) && patMatch ps bs

/-- `Scanner::find_pattern_in_buffer`: all positions (ascending) where
the pattern matches.  The source's first-byte fast-forward skips only
positions whose first byte cannot match, so its output is exactly this
filter. -/
def find_pattern_in_buffer (buffer : List Nat) (pattern : List (Option Nat)) :
    List Nat :=
  if pattern.isEmpty || buffer.length < pattern.length then []
  else
    (List.range (buffer.length - pattern.length + 1)).filter
      (fun i => patMatch pattern (buffer.drop i))

/-- `Scanner::scan`: parse, reject empty patterns, enumerate regions,
read each region in one shot (skipping unreadable ones) and collect
absolute match addresses. -/
def Scanner.scan (q : VmQuery) (mem : RpmOracle) (fuel start_addr end_addr : Nat)
    (signature : String) : Except String (List Nat) :=
  let pattern := parse_signature signature
  if pattern.isEmpty then Except.error "Invalid signature"
  else
    let regions := collectRegions q fuel start_addr end_addr
    Except.ok (regions.flatMap (fun r =>
      match read_bytes mem r.1 r.2 with
      | Except.ok buffer =>
        (find_pattern_in_buffer buffer pattern).map (fun off => wadd r.1 off)
      | Except.error _ => []))

-- ─── Claim C6: element-size detection (unreal/dumper.rs) ─────────
/-- `n` successive pointer dereferences, each landing above `0x10000`. -/
def derefChainOk (env : Env) : Nat → Nat → Bool
  | _, 0 => true
  | p, n + 1 =>
    match env.readPtr p with
    | some q => if 0x10000 < q then derefChainOk env q n else false
    | none => false

/-- One probed entry of the stride test: entry pointer readable and
plausible, twice dereferenceable, and its id at `+0xC` non-negative and
within absolute tolerance 2 of `n / k`. -/
def strideEntryOk (env : Env) (a0 n k : Nat) : Bool :=
  match env.readPtr (wadd a0 n) with
  | some obj_addr =>
    if 0x10000 < obj_addr then
      if derefChainOk env obj_addr 2 then
        let read_index := (env.readI32 (wadd obj_addr 0xC)).getD (-1)
        decide (0 ≤ read_index) && decide (Nat.dist read_index.toNat (n / k) ≤ 2)
      else false
    else false
  | none => false

/-- The stride test: entries at `n ∈ {0, k, …, 10k}` must all validate. -/
def tryStride (env : Env) (a0 k : Nat) : Bool :=
  (List.range 11).all (fun t => strideEntryOk env a0 (t * k) k)

/-- Candidate strides `(0x4..=0x1C).step_by(4)`. -/
def kCandidates : List Nat := [0x4, 0x8, 0xC, 0x10, 0x14, 0x18, 0x1C]

/-- First candidate stride (in scan order) that validates. -/
def kScan (env : Env) (a0 : Nat) : Option Nat :=
  kCandidates.find? (fun k => tryStride env a0 k)

/-- Up to `j` dereference levels (`for _j in 0..2`): try the strides,
then follow one more pointer level. -/
def jScan (env : Env) : Nat → Nat → Option Nat
  | _, 0 => none
  | a0, j + 1 =>
    match kScan env a0 with
    | some k => some k
    | none =>
      match env.readPtr a0 with
      | some p => if 0x10000 < p then jScan env p j else none
      | none => none

/-- Byte offsets `(-0x50..=0x200).step_by(4)` probed from the base. -/
def iCandidates : List Int := (List.range 149).map (fun t => -0x50 + 4 * (t : Int))

/-- One probe: the entry must read to a plausible pointer that can be
dereferenced 4 levels deep (the read plus a 3-step chain), then the
stride scan runs on it. -/
def probeEntry (env : Env) (base : Nat) (off : Int) : Option Nat :=
  match env.readPtr (waddI base off) with
  | some ptr =>
    if 0x10000 < ptr then
      if derefChainOk env ptr 3 then jScan env ptr 2 else none
    else none
  | none => none

/-- `BaseAddressDumper::detect_element_size`: first successful probe wins;
fall back to `0x18` when nothing validates.  (The source wraps the result
in `Ok`; it has no error path.) -/
def detect_element_size (env : Env) (base_address : Nat) : Nat :=
  (iCandidates.findSome? (probeEntry env base_address)).getD 0x18

/-- A two-level layout with 11 entries of stride `0x18` whose objects
carry ids `0..10` at `+0xC`. -/
def env18 : Env :=
  { readPtr := fun a =>
      if a = 0x100000 then some 0x200000
      else if 0x200000 ≤ a ∧ a ≤ 0x200000 + 0x18 * 10 ∧ (a - 0x200000) % 0x18 = 0 then
        some (0x300000 + 0x100 * ((a - 0x200000) / 0x18))
      else if 0x300000 ≤ a ∧ a ≤ 0x300000 + 0x100 * 10 ∧ (a - 0x300000) % 0x100 = 0 then
        some 0x400000
      else if a = 0x400000 then some 0x410000
      else none,
    readI32 := fun a =>
      if 0x300000 ≤ a ∧ a ≤ 0x300000 + 0x100 * 10 + 0xC ∧ (a - 0x300000) % 0x100 = 0xC then
        some (((a - 0x300000) / 0x100 : Nat) : Int)
      else none,
    readU8 := fun _ => none, getName := fun _ => none,
    fmtF32 := fun _ => "", fmtF64 := fun _ => "" }

/-- The same layout presented at stride `0x20`. -/
def env20 : Env :=
  { readPtr := fun a =>
      if a = 0x100000 then some 0x200000
      else if 0x200000 ≤ a ∧ a ≤ 0x200000 + 0x20 * 10 ∧ (a - 0x200000) % 0x20 = 0 then
        some (0x300000 + 0x100 * ((a - 0x200000) / 0x20))
      else if 0x300000 ≤ a ∧ a ≤ 0x300000 + 0x100 * 10 ∧ (a - 0x300000) % 0x100 = 0 then
        some 0x400000
      else if a = 0x400000 then some 0x410000
      else none,
    readI32 := fun a =>
      if 0x300000 ≤ a ∧ a ≤ 0x300000 + 0x100 * 10 + 0xC ∧ (a - 0x300000) % 0x100 = 0xC then
        some (((a - 0x300000) / 0x100 : Nat) : Int)
      else none,
    readU8 := fun _ => none, getName := fun _ => none,
    fmtF32 := fun _ => "", fmtF64 := fun _ => "" }

-- ─── Claim C10: get_array_elements (commands/instance.rs) ────────
/-- One synthetic property row of `get_array_elements`.  The numeric
fields are rendered exactly as the source does (`{:X}` for the offset,
`0x{:X}` for addresses). -/
structure InstancePropertyInfo where
  property_name : String
  property_type : String
  offset : String
  sub_type : String
  memory_address : String
  live_value : String
  is_object : Bool
  object_instance_address : String
  object_class_address : String
deriving Repr, DecidableEq

/-- Rust `str::to_lowercase` at ASCII level (the type keywords compared
against are all ASCII). -/
def charToLower (c : Char) : Char :=
  if 'A' ≤ c ∧ c ≤ 'Z' then Char.ofNat (c.toNat + 32) else c

def strToLower (s : String) : String := String.mk (s.data.map charToLower)

/-- Stride guess of `get_array_elements` from the lowercased inner type:
1 for byte/bool, 4 for int/float, 8 for double/name/str and by default. -/
def array_stride (type_lower : String) : Nat :=
  if strContains type_lower "byte" || strContains type_lower "bool" then 0x1
  else if strContains type_lower "int" || strContains type_lower "float" then 0x4
  else if strContains type_lower "double" || strContains type_lower "name"
      || strContains type_lower "str" then 0x8
  else 0x8

def gae_mk_row (inner_type : String) (i stride element_addr : Nat)
    (live_value : String) (is_object : Bool) (oia oca : String) :
    InstancePropertyInfo :=
  { property_name := "[" ++ toString i ++ "]", property_type := inner_type,
    offset := natToHex (i * stride), sub_type := "",
    memory_address := "0x" ++ natToHex element_addr,
    live_value := live_value, is_object := is_object,
    object_instance_address := oia, object_class_address := oca }

/-- Loop body of `get_array_elements` for index `i`: the live value per
type keyword (object/class resolve through the cache — threading the
catalog state — name via the pool, int/float/bool/pointer by typed
read). -/
def gae_row (env : Env) (off : UEOffset) (mgr : ObjectManager)
    (array_addr : Nat) (inner_type type_lower : String) (stride i : Nat) :
    InstancePropertyInfo × ObjectManager :=
  let element_addr := wadd array_addr (i * stride)
  if strContains type_lower "object" || strContains type_lower "class" then
    let obj_ptr := (env.readPtr element_addr).getD 0
    if 0x10000 < obj_ptr then
      let r := try_save_object env off mgr obj_ptr 0 5
      match r.1 with
      | some inst_obj =>
        let c_addr := (env.readPtr (wadd obj_ptr off.class')).getD 0
        (gae_mk_row inner_type i stride element_addr inst_obj.name true
          ("0x" ++ natToHex obj_ptr) ("0x" ++ natToHex c_addr), r.2)
      | none =>
        (gae_mk_row inner_type i stride element_addr ("0x" ++ natToHex obj_ptr)
          true ("0x" ++ natToHex obj_ptr) "", r.2)
    else
      (gae_mk_row inner_type i stride element_addr "0x0" false "" "", mgr)
  else if strContains type_lower "name" then
    (gae_mk_row inner_type i stride element_addr
      ((env.getName (asU32 ((env.readI32 element_addr).getD 0))).getD "None")
      false "" "", mgr)
  else if strContains type_lower "int" then
    (gae_mk_row inner_type i stride element_addr
      (toString ((env.readI32 element_addr).getD 0)) false "" "", mgr)
  else if strContains type_lower "float" then
    (gae_mk_row inner_type i stride element_addr (env.fmtF32 element_addr)
      false "" "", mgr)
  else if strContains type_lower "bool" then
    (gae_mk_row inner_type i stride element_addr
      (if 0 < (env.readU8 element_addr).getD 0 then "True" else "False")
      false "" "", mgr)
  else
    (gae_mk_row inner_type i stride element_addr
      ("0x" ++ natToHex ((env.readPtr element_addr).getD 0)) false "" "", mgr)

/-- The loop `for i in 0..safe_count`, threading the catalog. -/
def gae_rows (env : Env) (off : UEOffset) (array_addr : Nat)
    (inner_type type_lower : String) (stride : Nat) :
    Nat → Nat → ObjectManager → List InstancePropertyInfo × ObjectManager
  | _, 0, mgr => ([], mgr)
  | i, n + 1, mgr =>
    let r := gae_row env off mgr array_addr inner_type type_lower stride i
    let rest := gae_rows env off array_addr inner_type type_lower stride (i + 1) n r.2
    (r.1 :: rest.1, rest.2)

/-- `get_array_elements` (`expandArray`): clamp the count to 9999
(negative counts yield an empty loop), pick the stride from the
lowercased inner type, and produce one row per index. -/
def get_array_elements (env : Env) (off : UEOffset) (mgr : ObjectManager)
    (array_addr : Nat) (inner_type : String) (count : Int) :
    List InstancePropertyInfo × ObjectManager :=
  let safe_count := min count 9999
  let type_lower := strToLower inner_type
  let stride := array_stride type_lower
  gae_rows env off array_addr inner_type type_lower stride 0 safe_count.toNat mgr

-- ─── Helper lemmas about the cache model ─────────────────────────
theorem mem_of_insertA {l : List (Nat × ObjectData)} {k : Nat} {v : ObjectData}
    {p : Nat × ObjectData} (h : p ∈ insertA l k v) : p = (k, v) ∨ p ∈ l := by
  rcases List.mem_cons.mp h with h | h
  · exact Or.inl h
  · exact Or.inr (List.mem_filter.mp h).1

theorem lookup_insertA_self (l : List (Nat × ObjectData)) (k : Nat)
    (v : ObjectData) : (insertA l k v).lookup k = some v := by
  simp [insertA, List.lookup]

theorem lookup_mem {l : List (Nat × ObjectData)} {k : Nat} {v : ObjectData}
    (h : l.lookup k = some v) : (k, v) ∈ l := by
  induction l with
  | nil => simp [List.lookup] at h
  | cons p t ih =>
    obtain ⟨a, b⟩ := p
    simp only [List.lookup] at h
    split at h
    · rename_i heq
      cases h
      have ha : k = a := by simpa using heq
      subst ha
      exact List.mem_cons_self _ _
    · exact List.mem_cons_of_mem _ (ih h)

theorem gbi1_full_name (env : Env) (off : UEOffset) (a : Nat)
    (obj : ObjectData) :
    (get_basic_info_1 env off a obj).2.full_name = obj.full_name := by
  simp only [get_basic_info_1]
  split
  · rfl
  · split
    · rfl
    · split <;> rfl

theorem gbi2_full_name (env : Env) (off : UEOffset) (a : Nat)
    (obj : ObjectData) :
    (get_basic_info_2 env off a obj).2.full_name = obj.full_name := by
  simp only [get_basic_info_2]
  split <;> rfl

theorem rfnl_count (env : Env) (off : UEOffset) :
    ∀ (fuel : Nat) (mgr : ObjectManager) (res pt : String) (co : Nat),
      (resolve_full_name_loop env off fuel mgr res pt co).2.total_object_count
        = mgr.total_object_count := by
  intro fuel
  induction fuel with
  | zero => intro mgr res pt co; rfl
  | succ n ih =>
    intro mgr res pt co
    simp only [resolve_full_name_loop]
    split
    · split
      · exact ih ..
      · split
        · rfl
        · split <;> split <;> first | rfl | exact ih ..
    · rfl

/-- Any per-record predicate that holds for every shallow record (non-empty
type name, empty full name) is preserved by the outer-chain loop. -/
theorem rfnl_inv (env : Env) (off : UEOffset) (P : ObjectData → Prop)
    (hP : ∀ o : ObjectData, o.type_name ≠ "" → o.full_name = "" → P o) :
    ∀ (fuel : Nat) (mgr : ObjectManager) (res pt : String) (co : Nat),
      (∀ p ∈ mgr.cache_by_address, P p.2) →
      ∀ p ∈ (resolve_full_name_loop env off fuel mgr res pt co).2.cache_by_address,
        P p.2 := by
  intro fuel
  induction fuel with
  | zero => intro mgr res pt co hinv; exact hinv
  | succ n ih =>
    intro mgr res pt co hinv
    simp only [resolve_full_name_loop]
    split
    · split
      · exact ih _ _ _ _ hinv
      · split
        · exact hinv
        · split
          · split
            · exact hinv
            · rename_i hr1 hne
              refine ih _ _ _ _ ?_
              intro p hp
              rcases mem_of_insertA hp with rfl | hp'
              · simp only [Bool.or_eq_true, decide_eq_true_eq, not_or] at hne
                refine hP _ hne.1 ?_
                rw [gbi1_full_name]
                rfl
              · exact hinv _ hp'
          · split
            · exact hinv
            · rename_i hr1 hne
              refine ih _ _ _ _ ?_
              intro p hp
              rcases mem_of_insertA hp with rfl | hp'
              · simp only [Bool.or_eq_true, decide_eq_true_eq, not_or] at hne
                refine hP _ hne.1 ?_
                rw [gbi2_full_name, gbi1_full_name]
                rfl
              · exact hinv _ hp'
    · exact hinv

-- ─── Claim C7 ────────────────────────────────────────────────────
/-- C7: `try_save_object` on an implausible address (`a < 0x10000`), at
exhausted depth (`depth ≥ max_depth`), or when the initial pointer read
fails, returns `None` and leaves the whole cache state unchanged. -/
theorem claim_c7_no_side_effects (env : Env) (off : UEOffset)
    (mgr : ObjectManager) (a d m : Nat)
    (h : a < 0x10000 ∨ m ≤ d ∨ env.readPtr a = none) :
    try_save_object env off mgr a d m = (none, mgr) := by
  by_cases h1 : a < 0x10000
  · simp [try_save_object, h1]
  by_cases h2 : m ≤ d
  · simp [try_save_object, h1, h2]
  rcases h with h | h | h
  · exact absurd h h1
  · exact absurd h h2
  · simp [try_save_object, h1, h2, h]

/-- Witness for C7 at the concrete address `5`. -/
theorem claim_c7_no_side_effects_witness :
    ((5 : Nat) < 0x10000 ∨ (5 : Nat) ≤ 0 ∨ envTrivial.readPtr 5 = none) ∧
    try_save_object envTrivial UEOffset.default ObjectManager.new 5 0 5
      = (none, ObjectManager.new) :=
  ⟨Or.inl (by decide),
   claim_c7_no_side_effects envTrivial UEOffset.default ObjectManager.new 5 0 5
     (Or.inl (by decide))⟩

-- ─── Claim C2 ────────────────────────────────────────────────────
/-- C2 counterexample: after one quiescent `try_save_object` run on
`envAB`, the counter is 1 but `byAddress` holds 2 records with valid
names — the record cached shallowly during outer-chain composition is
never counted. -/
theorem claim_c2_counterexample :
    (try_save_object envAB UEOffset.default ObjectManager.new 0x500000 0 5).2.total_object_count = 1 ∧
    validNameCount (try_save_object envAB UEOffset.default ObjectManager.new 0x500000 0 5).2 = 2 ∧
    (1 : Nat) ≠ 2 := by
  refine ⟨by decide, by decide, by decide⟩

/-- Counter bookkeeping of the insert stage: the counter is bumped
exactly when a record with a valid name is fully inserted. -/
theorem sv_count (env : Env) (off : UEOffset) (mgr : ObjectManager)
    (a : Nat) (obj : ObjectData) :
    (save_valid env off mgr a obj).2.total_object_count
      = mgr.total_object_count +
        (match (save_valid env off mgr a obj).1 with
         | none => 0
         | some o => if o.name ≠ "None" ∧ o.name ≠ "InvalidName" then 1 else 0) := by
  simp only [save_valid]
  split
  · simp
  · split
    · rename_i h
      simp only [Bool.or_eq_true, decide_eq_true_eq] at h
      rcases h with h | h <;> simp [h]
    · rename_i h
      simp only [Bool.or_eq_true, decide_eq_true_eq, not_or] at h
      split <;> split <;> simp [resolve_full_name, rfnl_count, h.1, h.2]

/-- Counter bookkeeping of tier 2. -/
theorem sno_count (env : Env) (off : UEOffset) (mgr : ObjectManager) (a : Nat) :
    (save_new_object env off mgr a).2.total_object_count
      = mgr.total_object_count +
        (match (save_new_object env off mgr a).1 with
         | none => 0
         | some o => if o.name ≠ "None" ∧ o.name ≠ "InvalidName" then 1 else 0) := by
  simp only [save_new_object, save_checked]
  split
  · rename_i h1
    rw [if_neg (by simp [h1])]
    exact sv_count env off mgr a _
  · split
    · simp
    · exact sv_count env off mgr a _

-- ─── Branch lemmas for try_save_object ───────────────────────────
theorem tso_guard (env : Env) (off : UEOffset) (mgr : ObjectManager)
    (a d m : Nat) (h : a < 0x10000 ∨ m ≤ d ∨ env.readPtr a = none) :
    try_save_object env off mgr a d m = (none, mgr) := by
  by_cases h1 : a < 0x10000
  · simp [try_save_object, h1]
  by_cases h2 : m ≤ d
  · simp [try_save_object, h1, h2]
  rcases h with h | h | h
  · exact absurd h h1
  · exact absurd h h2
  · simp [try_save_object, h1, h2, h]

theorem tso_not_guard (env : Env) (off : UEOffset) (mgr : ObjectManager)
    (a d m : Nat) (h1 : ¬ a < 0x10000) (h2 : ¬ m ≤ d)
    (h3 : ¬ env.readPtr a = none) :
    try_save_object env off mgr a d m =
      (match mgr.cache_by_address.lookup a with
       | some cached => (some cached, mgr)
       | none => save_new_object env off mgr a) := by
  simp [try_save_object, h1, h2, h3, Option.isNone_iff_eq_none]

/-- C2 amended: the counter counts exactly the successful full-path
insertions of `try_save_object` (a fresh address whose record has a
valid name), and the outer-chain walk — hence every shallow insert —
never touches the counter. -/
theorem claim_c2_amended :
    (∀ (env : Env) (off : UEOffset) (mgr : ObjectManager) (a d m : Nat),
      (try_save_object env off mgr a d m).2.total_object_count
        = mgr.total_object_count +
          (match (try_save_object env off mgr a d m).1 with
           | none => 0
           | some obj =>
             if mgr.cache_by_address.lookup a = none
                 ∧ obj.name ≠ "None" ∧ obj.name ≠ "InvalidName"
             then 1 else 0))
    ∧ (∀ (env : Env) (off : UEOffset) (fuel : Nat) (mgr : ObjectManager)
        (res pt : String) (co : Nat),
        (resolve_full_name_loop env off fuel mgr res pt co).2.total_object_count
          = mgr.total_object_count) := by
  constructor
  · intro env off mgr a d m
    by_cases h1 : a < 0x10000
    · simp [try_save_object, h1]
    by_cases h2 : m ≤ d
    · simp [try_save_object, h1, h2]
    by_cases h3 : env.readPtr a = none
    · simp [try_save_object, h1, h2, h3]
    rw [tso_not_guard env off mgr a d m h1 h2 h3]
    cases hl : mgr.cache_by_address.lookup a with
    | some cached => simp [hl]
    | none =>
      simp only [hl]
      simpa using sno_count env off mgr a
  · intro env off fuel mgr res pt co
    exact rfnl_count env off fuel mgr res pt co

-- ─── Claim C1 ────────────────────────────────────────────────────
theorem sv_type_nonempty (env : Env) (off : UEOffset) (mgr : ObjectManager)
    (a : Nat) (obj : ObjectData)
    (hinv : ∀ p ∈ mgr.cache_by_address, p.2.type_name ≠ "") :
    ∀ p ∈ (save_valid env off mgr a obj).2.cache_by_address,
      p.2.type_name ≠ "" := by
  simp only [save_valid]
  split
  · exact hinv
  · split
    · exact hinv
    · rename_i hty hnm
      simp only [Bool.or_eq_true, decide_eq_true_eq, not_or] at hty
      have hinv1 : ∀ p ∈ insertA mgr.cache_by_address a obj, p.2.type_name ≠ "" := by
        intro p hp
        rcases mem_of_insertA hp with rfl | hp'
        · exact hty.1
        · exact hinv _ hp'
      split <;> split <;>
        (intro p hp
         rcases mem_of_insertA hp with rfl | hp') <;>
        first
          | (simp only [resolve_full_name]; exact hty.1)
          | exact hty.1
          | exact rfnl_inv env off (fun o => o.type_name ≠ "")
              (fun o h _ => h) 10 _ _ _ _ hinv1 _ hp'
          | exact hinv1 _ hp'

theorem sno_type_nonempty (env : Env) (off : UEOffset) (mgr : ObjectManager)
    (a : Nat) (hinv : ∀ p ∈ mgr.cache_by_address, p.2.type_name ≠ "") :
    ∀ p ∈ (save_new_object env off mgr a).2.cache_by_address,
      p.2.type_name ≠ "" := by
  simp only [save_new_object, save_checked]
  split
  · rename_i h1
    rw [if_neg (by simp [h1])]
    exact sv_type_nonempty env off mgr a _ hinv
  · split
    · exact hinv
    · exact sv_type_nonempty env off mgr a _ hinv

theorem sv_lookup_checked (env : Env) (off : UEOffset) (mgr : ObjectManager)
    (a : Nat) (obj : ObjectData)
    (h : mgr.cache_by_address.lookup a = none) :
    ∀ r', (save_valid env off mgr a obj).2.cache_by_address.lookup a = some r' →
      r'.type_name ≠ "" ∧ strLen r'.type_name ≤ 100 := by
  simp only [save_valid]
  split
  · intro r' hr'
    rw [h] at hr'
    cases hr'
  · split
    · intro r' hr'
      rw [h] at hr'
      cases hr'
    · rename_i hty hnm
      simp only [Bool.or_eq_true, decide_eq_true_eq, not_or] at hty
      split <;> split <;>
        (intro r' hr'
         rw [lookup_insertA_self] at hr'
         cases hr') <;>
        exact ⟨hty.1, Nat.not_lt.mp hty.2⟩

theorem sno_lookup_checked (env : Env) (off : UEOffset) (mgr : ObjectManager)
    (a : Nat) (h : mgr.cache_by_address.lookup a = none) :
    ∀ r', (save_new_object env off mgr a).2.cache_by_address.lookup a = some r' →
      r'.type_name ≠ "" ∧ strLen r'.type_name ≤ 100 := by
  simp only [save_new_object, save_checked]
  split
  · rename_i h1
    rw [if_neg (by simp [h1])]
    exact sv_lookup_checked env off mgr a _ h
  · split
    · intro r' hr'
      rw [h] at hr'
      cases hr'
    · exact sv_lookup_checked env off mgr a _ h

/-- C1 counterexample: starting from the empty catalog (which satisfies
the invariant), one `try_save_object` run on `envAB` leaves a cached
record whose `type_name` is 101 bytes long — the shallow insert of the
outer-chain walk checks emptiness but not the length bound. -/
theorem claim_c1_counterexample :
    catalogTypeLenOk ObjectManager.new = true ∧
    catalogTypeLenOk
      (try_save_object envAB UEOffset.default ObjectManager.new 0x500000 0 5).2
      = false :=
  ⟨by decide, by decide⟩

/-- C1 amended: every insert performed by `try_save_object` preserves
non-emptiness of cached `type_name`s, and the record stored at the
requested address itself always satisfies the full invariant (non-empty
and at most 100 bytes); only the shallow inserts of the outer-chain walk
may exceed the length bound. -/
theorem claim_c1_amended :
    ∀ (env : Env) (off : UEOffset) (mgr : ObjectManager) (a d m : Nat),
      ((∀ p ∈ mgr.cache_by_address, p.2.type_name ≠ "") →
        ∀ p ∈ (try_save_object env off mgr a d m).2.cache_by_address,
          p.2.type_name ≠ "")
      ∧ (∀ r', mgr.cache_by_address.lookup a = none →
          (try_save_object env off mgr a d m).2.cache_by_address.lookup a = some r' →
          r'.type_name ≠ "" ∧ strLen r'.type_name ≤ 100) := by
  intro env off mgr a d m
  by_cases h1 : a < 0x10000
  · rw [tso_guard env off mgr a d m (Or.inl h1)]
    refine ⟨fun hinv => hinv, fun r' hn hr' => ?_⟩
    rw [hn] at hr'
    cases hr'
  by_cases h2 : m ≤ d
  · rw [tso_guard env off mgr a d m (Or.inr (Or.inl h2))]
    refine ⟨fun hinv => hinv, fun r' hn hr' => ?_⟩
    rw [hn] at hr'
    cases hr'
  by_cases h3 : env.readPtr a = none
  · rw [tso_guard env off mgr a d m (Or.inr (Or.inr h3))]
    refine ⟨fun hinv => hinv, fun r' hn hr' => ?_⟩
    rw [hn] at hr'
    cases hr'
  rw [tso_not_guard env off mgr a d m h1 h2 h3]
  cases hl : mgr.cache_by_address.lookup a with
  | some cached =>
    refine ⟨fun hinv => hinv, fun r' hn hr' => ?_⟩
    exact absurd hn (by simp)
  | none =>
    exact ⟨fun hinv => sno_type_nonempty env off mgr a hinv,
           fun r' _ hr' => sno_lookup_checked env off mgr a hl r' hr'⟩

theorem sv_props (env : Env) (off : UEOffset) (mgr : ObjectManager)
    (a : Nat) (obj : ObjectData) (hobj : obj.full_name = "")
    (hinv : PropsHaveEmptyFull mgr) :
    PropsHaveEmptyFull (save_valid env off mgr a obj).2
    ∧ (∀ o, (save_valid env off mgr a obj).1 = some o →
        strContains o.type_name "Property" = true → o.full_name = "") := by
  have hbase : ∀ q ∈ insertA mgr.cache_by_address a obj,
      strContains q.2.type_name "Property" = true → q.2.full_name = "" := by
    intro q hq hqp
    rcases mem_of_insertA hq with rfl | hq'
    · exact hobj
    · exact hinv _ hq' hqp
  simp only [save_valid]
  split
  · refine ⟨hinv, ?_⟩
    intro o ho
    simp at ho
  · split
    · refine ⟨hinv, ?_⟩
      intro o ho hprop
      cases ho
      exact hobj
    · rename_i hty hnm
      constructor
      · -- preservation of the invariant through the two-tier insert
        split
        · rename_i c1
          simp only [Bool.and_eq_true, Bool.not_eq_true'] at c1
          split <;>
            (intro p hp
             rcases mem_of_insertA hp with rfl | hp') <;>
            first
              | (intro hprop
                 simp only [resolve_full_name] at hprop
                 exact absurd hprop (by simp [c1.1]))
              | (refine rfnl_inv env off
                   (fun o => strContains o.type_name "Property" = true → o.full_name = "")
                   (fun o _ hf => fun _ => hf) 10 _ _ _ _ ?_ _ hp'
                 exact hbase)
        · split <;>
            (intro p hp
             rcases mem_of_insertA hp with rfl | hp') <;>
            first
              | (intro _; exact hobj)
              | (intro hprop
                 rcases mem_of_insertA hp' with rfl | hp''
                 · exact hobj
                 · exact hinv _ hp'' hprop)
      · -- the returned record
        split
        · rename_i c1
          simp only [Bool.and_eq_true, Bool.not_eq_true'] at c1
          intro o ho hprop
          cases ho
          simp only [resolve_full_name] at hprop
          exact absurd hprop (by simp [c1.1])
        · intro o ho hprop
          cases ho
          exact hobj

theorem sno_props (env : Env) (off : UEOffset) (mgr : ObjectManager)
    (a : Nat) (hinv : PropsHaveEmptyFull mgr) :
    PropsHaveEmptyFull (save_new_object env off mgr a).2
    ∧ (∀ o, (save_new_object env off mgr a).1 = some o →
        strContains o.type_name "Property" = true → o.full_name = "") := by
  simp only [save_new_object, save_checked]
  split
  · rename_i h1
    rw [if_neg (by simp [h1])]
    refine sv_props env off mgr a _ ?_ hinv
    split <;> simp [gbi1_full_name, ObjectData.empty]
  · split
    · refine ⟨hinv, ?_⟩
      intro o ho
      simp at ho
    · refine sv_props env off mgr a _ ?_ hinv
      split <;> simp [gbi2_full_name, gbi1_full_name, ObjectData.empty]

/-- C5 counterexample: on the property node `X` (`"ObjectProperty"`,
name `"Owner"`) whose outer `A` is cached with fullName
`"/Script/Engine.Actor"`, `try_save_object` returns a record whose
`full_name` is empty — not `"/Script/Engine.Actor:Owner"` — because
property-typed records skip full-name resolution entirely. -/
theorem claim_c5_counterexample :
    ((try_save_object envX UEOffset.default catA 0x800000 0 5).1.map
      (fun o => o.full_name)) = some "" ∧
    some "" ≠ some "/Script/Engine.Actor:Owner" :=
  ⟨by decide, by decide⟩

/-- C5 amended: `try_save_object` never composes a fullName for a record
whose typeName contains `"Property"` (such records keep an empty
`full_name`, both in the cache and in the returned value); inside
`resolve_full_name`, the `':'` separator is chosen exactly when the
accumulated child typeName contains `"Property"` or `"Function"` and the
outer typeName contains neither. -/
theorem claim_c5_amended :
    (∀ (env : Env) (off : UEOffset) (mgr : ObjectManager) (a d m : Nat),
      PropsHaveEmptyFull mgr →
        PropsHaveEmptyFull (try_save_object env off mgr a d m).2
        ∧ (∀ o, (try_save_object env off mgr a d m).1 = some o →
            strContains o.type_name "Property" = true → o.full_name = ""))
    ∧ (∀ p o, sepFor p o = ":" ↔
        ((strContains p "Property" = true ∨ strContains p "Function" = true)
          ∧ strContains o "Property" = false ∧ strContains o "Function" = false)) := by
  constructor
  · intro env off mgr a d m hinv
    by_cases h1 : a < 0x10000
    · rw [tso_guard env off mgr a d m (Or.inl h1)]
      exact ⟨hinv, by intro o ho; simp at ho⟩
    by_cases h2 : m ≤ d
    · rw [tso_guard env off mgr a d m (Or.inr (Or.inl h2))]
      exact ⟨hinv, by intro o ho; simp at ho⟩
    by_cases h3 : env.readPtr a = none
    · rw [tso_guard env off mgr a d m (Or.inr (Or.inr h3))]
      exact ⟨hinv, by intro o ho; simp at ho⟩
    rw [tso_not_guard env off mgr a d m h1 h2 h3]
    cases hl : mgr.cache_by_address.lookup a with
    | some cached =>
      refine ⟨hinv, ?_⟩
      intro o ho hprop
      cases ho
      exact hinv _ (lookup_mem hl) hprop
    | none => exact sno_props env off mgr a hinv
  · intro p o
    cases hp1 : strContains p "Property" <;> cases hp2 : strContains p "Function" <;>
      cases ho1 : strContains o "Property" <;> cases ho2 : strContains o "Function" <;>
      simp [sepFor, hp1, hp2, ho1, ho2]

/-- Witness for C5 amended: a concrete run preserving the invariant, and
the colon separator on a concrete Property/Class pair. -/
theorem claim_c5_amended_witness :
    PropsHaveEmptyFull (try_save_object envX UEOffset.default catA 0x800000 0 5).2 ∧
    sepFor "ObjectProperty" "Class" = ":" := by
  constructor
  · refine (claim_c5_amended.1 envX UEOffset.default catA 0x800000 0 5 ?_).1
    intro p hp hq
    simp only [catA] at hp
    rcases List.mem_singleton.mp hp with rfl
    exact absurd hq (by decide)
  · exact (claim_c5_amended.2 "ObjectProperty" "Class").mpr
      ⟨Or.inl (by decide), by decide, by decide⟩

/-- Witness for C1 amended on the concrete run over `envAB`: the record
stored at the requested address satisfies the full invariant, and every
cached record (here: the shallow one at `B`) has a non-empty type name. -/
theorem claim_c1_amended_witness :
    (((try_save_object envAB UEOffset.default ObjectManager.new 0x500000 0 5).2.cache_by_address.lookup 0x500000).map
      (fun r => decide (r.type_name ≠ "") && decide (strLen r.type_name ≤ 100)))
      = some true ∧
    (((try_save_object envAB UEOffset.default ObjectManager.new 0x500000 0 5).2.cache_by_address.lookup 0x600000).map
      (fun r => decide (r.type_name ≠ ""))) = some true := by
  constructor
  · cases hr : (try_save_object envAB UEOffset.default ObjectManager.new 0x500000 0 5).2.cache_by_address.lookup 0x500000 with
    | none => exact absurd hr (by decide)
    | some r =>
      have h := (claim_c1_amended envAB UEOffset.default ObjectManager.new
        0x500000 0 5).2 r (by decide) hr
      simp [h.1, h.2]
  · cases hr : (try_save_object envAB UEOffset.default ObjectManager.new 0x500000 0 5).2.cache_by_address.lookup 0x600000 with
    | none => exact absurd hr (by decide)
    | some r =>
      have h := (claim_c1_amended envAB UEOffset.default ObjectManager.new
        0x500000 0 5).1
        (by intro p hp; simp [ObjectManager.new] at hp) _ (lookup_mem hr)
      simp [h]

theorem count_of_findChar {c : Char} : ∀ {l : List Char} {i : Nat},
    findChar c l = some i → l.count c = (l.drop (i + 1)).count c + 1 := by
  intro l
  induction l with
  | nil => intro i h; simp [findChar] at h
  | cons a as ih =>
    intro i h
    simp only [findChar] at h
    split at h
    · rename_i hac
      cases h
      subst hac
      simp [List.count_cons]
    · rename_i hac
      cases hfc : findChar c as with
      | none => rw [hfc] at h; simp at h
      | some j =>
        rw [hfc] at h
        simp at h
        rw [← h]
        have := ih hfc
        simpa [List.count_cons, hac] using this

theorem two_slashes_of_two_finds {l : List Char} {i j : Nat}
    (h1 : findChar '/' l = some i)
    (h2 : findChar '/' (l.drop (i + 1)) = some j) :
    2 ≤ l.count '/' := by
  have e1 := count_of_findChar h1
  have e2 := count_of_findChar h2
  omega

/-- C3 counterexample: on `"/Game/Map/BP.BP_C:Fn"` the code cuts at the
third `/` and returns `"/Game/Map"`, not the claimed `"/Game/Map/BP"`. -/
theorem claim_c3_counterexample :
    extract_package_name "/Game/Map/BP.BP_C:Fn" = "/Game/Map" ∧
    "/Game/Map" ≠ "/Game/Map/BP" :=
  ⟨by decide, by decide⟩

/-- C3 amended: fewer than two `/` yields `""`; the terminator after the
second `/` is searched with priority `/` before `.` before `:` (not the
earliest of the three), so `"/Script/Engine.Actor" ↦ "/Script/Engine"`,
`"/Game/Map/BP.BP_C:Fn" ↦ "/Game/Map"`, `"NoSlashes" ↦ ""`. -/
theorem claim_c3_amended :
    (∀ input : String, input.data.count '/' < 2 → extract_package_name input = "")
    ∧ extract_package_name "/Script/Engine.Actor" = "/Script/Engine"
    ∧ extract_package_name "/Game/Map/BP.BP_C:Fn" = "/Game/Map"
    ∧ extract_package_name "NoSlashes" = "" := by
  refine ⟨?_, by decide, by decide, by decide⟩
  intro input hcount
  cases h1 : findChar '/' input.data with
  | none => simp [extract_package_name, h1]
  | some i =>
    cases h2 : findChar '/' (input.data.drop (i + 1)) with
    | none => simp [extract_package_name, h1, h2]
    | some j => exact absurd (two_slashes_of_two_finds h1 h2) (by omega)

/-- Witness for C3 amended at `"NoSlashes"`. -/
theorem claim_c3_amended_witness :
    ("NoSlashes".data.count '/' < 2) ∧ extract_package_name "NoSlashes" = "" :=
  ⟨by decide, claim_c3_amended.1 "NoSlashes" (by decide)⟩

/-- C4 counterexample: with a reported partial read (1 of 4 bytes),
`read_bytes` still returns `Ok` — it does not treat the partial read as
failure. -/
theorem claim_c4_counterexample :
    read_bytes partialOracle 0x1000 4 = Except.ok (List.replicate 4 0) ∧
    partialOracle.bytesRead 0x1000 4 < 4 :=
  ⟨rfl, by decide⟩

/-- C4 amended: the typed `try_read` does treat a partial read as failure
(`bytes_read` must equal the requested size), while `read_bytes` returns
`Ok` exactly when the OS call succeeded with `bytes_read > 0`, even if
fewer than the requested bytes were read. -/
theorem claim_c4_amended :
    ∀ (m : RpmOracle) (a n : Nat),
      (m.bytesRead a n ≠ n → try_read m a n = none)
      ∧ ((read_bytes m a n).isOk
          = (m.ok a n && decide (0 < m.bytesRead a n))) := by
  intro m a n
  constructor
  · intro h
    simp [try_read, h]
  · simp only [read_bytes]
    split
    · rename_i h
      rw [h]
      rfl
    · rename_i h
      simp only [Bool.not_eq_true] at h
      rw [h]
      rfl

/-- Witness for C4 amended at the partial oracle. -/
theorem claim_c4_amended_witness :
    (partialOracle.bytesRead 0x1000 4 ≠ 4) ∧
    try_read partialOracle 0x1000 4 = none :=
  ⟨by decide, (claim_c4_amended partialOracle 0x1000 4).1 (by decide)⟩

theorem emod_add_left_emod (x y N : Int) : (x % N + y) % N = (x + y) % N := by
  conv_lhs => rw [Int.add_emod]
  rw [Int.emod_emod_of_dvd _ (dvd_refl N), ← Int.add_emod]

/-- C8: for every instruction address, displacement offset, instruction
length and every i32 displacement (including INT_MIN and INT_MAX), the
resolved target is `(ia + L) + sext32(i32 at ia + d)` modulo `2^64`. -/
theorem claim_c8_rip_resolution (env : Env) (ia d L : Nat) (disp : Int)
    (hlo : -(2 ^ 31) ≤ disp) (hhi : disp < 2 ^ 31)
    (hread : env.readI32 (wadd ia d) = some disp) :
    ∃ t, resolve_rip env ia d L = Except.ok t ∧
      (t : Int) = ((((ia : Nat) : Int) + ((L : Nat) : Int) + disp) % (2 ^ 64)) := by
  refine ⟨waddI (wadd ia L) disp, by simp [resolve_rip, hread], ?_⟩
  simp only [waddI, wadd]
  have hnn : (0 : Int) ≤ ((((ia + L) % 2 ^ 64 : Nat) : Int) + disp) % (2 ^ 64) :=
    Int.emod_nonneg _ (by norm_num)
  rw [Int.toNat_of_nonneg hnn]
  push_cast
  rw [emod_add_left_emod]

/-- Witness for C8 with displacement `-2` at `ia = 0x1000`, `d = 3`,
`L = 7`. -/
theorem claim_c8_rip_resolution_witness :
    (-(2 ^ 31) ≤ (-2 : Int)) ∧ ((-2 : Int) < 2 ^ 31) ∧
    envRip.readI32 (wadd 0x1000 3) = some (-2) ∧
    ∃ t, resolve_rip envRip 0x1000 3 7 = Except.ok t ∧
      (t : Int) = ((((0x1000 : Nat) : Int) + ((7 : Nat) : Int) + (-2)) % (2 ^ 64)) :=
  ⟨by decide, by decide, rfl,
   claim_c8_rip_resolution envRip 0x1000 3 7 (-2) (by decide) (by decide) rfl⟩

/-- C9: signature parsing never fails — every token yields a list entry
(`none` for wildcards and for malformed tokens such as `"ZZ"`), and
`Scanner::scan` returns `Err` exactly for signatures whose token list is
empty. -/
theorem claim_c9_signature_parsing :
    (∀ (q : VmQuery) (mem : RpmOracle) (fuel s e : Nat) (sig : String),
      (∃ msg, Scanner.scan q mem fuel s e sig = Except.error msg)
        ↔ parse_signature sig = [])
    ∧ (∀ sig : String, (parse_signature sig).length = (sigTokens sig).length)
    ∧ parse_signature "48 8D ZZ ? 05"
        = [some 0x48, some 0x8D, none, none, some 0x05] := by
  refine ⟨?_, ?_, by decide⟩
  · intro q mem fuel s e sig
    constructor
    · rintro ⟨msg, hmsg⟩
      by_cases hp : parse_signature sig = []
      · exact hp
      · simp [Scanner.scan, List.isEmpty_iff, hp] at hmsg
    · intro hp
      exact ⟨"Invalid signature", by simp [Scanner.scan, hp]⟩
  · intro sig
    simp [parse_signature]

theorem kScan_mem {env : Env} {a0 k : Nat} (h : kScan env a0 = some k) :
    k ∈ kCandidates :=
  List.mem_of_find?_eq_some h

theorem exists_of_findSome?_eq_some {α β : Type} {f : α → Option β} :
    ∀ {l : List α} {b : β}, l.findSome? f = some b → ∃ a ∈ l, f a = some b := by
  intro l
  induction l with
  | nil => intro b h; simp [List.findSome?] at h
  | cons a t ih =>
    intro b h
    simp only [List.findSome?] at h
    cases hfa : f a with
    | some c =>
      rw [hfa] at h
      cases h
      exact ⟨a, List.mem_cons_self _ _, hfa⟩
    | none =>
      rw [hfa] at h
      obtain ⟨x, hx, hfx⟩ := ih h
      exact ⟨x, List.mem_cons_of_mem _ hx, hfx⟩

theorem jScan_mem (env : Env) :
    ∀ (j a0 k : Nat), jScan env a0 j = some k → k ∈ kCandidates := by
  intro j
  induction j with
  | zero => intro a0 k h; simp [jScan] at h
  | succ n ih =>
    intro a0 k h
    simp only [jScan] at h
    cases hk : kScan env a0 with
    | some q => simp only [hk] at h; cases h; exact kScan_mem hk
    | none =>
      simp only [hk] at h
      cases hp : env.readPtr a0 with
      | some p =>
        simp only [hp] at h
        by_cases hlt : 0x10000 < p
        · rw [if_pos hlt] at h
          exact ih _ _ h
        · rw [if_neg hlt] at h
          cases h
      | none => simp only [hp] at h; cases h

theorem probeEntry_mem {env : Env} {base : Nat} {off : Int} {k : Nat}
    (h : probeEntry env base off = some k) : k ∈ kCandidates := by
  simp only [probeEntry] at h
  cases hp : env.readPtr (waddI base off) with
  | none => simp only [hp] at h; cases h
  | some ptr =>
    simp only [hp] at h
    by_cases h1 : 0x10000 < ptr
    · rw [if_pos h1] at h
      by_cases h2 : derefChainOk env ptr 3 = true
      · rw [if_pos h2] at h
        exact jScan_mem env 2 ptr k h
      · rw [if_neg h2] at h
        cases h
    · rw [if_neg h1] at h
      cases h

/-- C6 counterexample: on the stride-`0x20` layout the detector falls
back to `0x18` — `0x20` is not among the candidate strides and can never
be returned. -/
theorem claim_c6_counterexample :
    detect_element_size env20 0x100000 = 0x18 ∧ (0x18 : Nat) ≠ 0x20 :=
  ⟨by decide, by decide⟩

/-- C6 amended: the detector accepts the first validating stride from
`{4, 8, 12, 16, 20, 24, 28}` in scan order and otherwise falls back to
`0x18`; the stride-`0x18` layout yields `0x18`, while the stride-`0x20`
layout also yields `0x18` (the fallback), because `0x20` is outside the
candidate set. -/
theorem claim_c6_amended :
    detect_element_size env18 0x100000 = 0x18 ∧
    detect_element_size env20 0x100000 = 0x18 ∧
    (∀ (env : Env) (base : Nat),
      detect_element_size env base ∈ kCandidates ++ [0x18]) := by
  refine ⟨by decide, by decide, ?_⟩
  intro env base
  simp only [detect_element_size]
  cases hf : iCandidates.findSome? (probeEntry env base) with
  | none => simp [kCandidates]
  | some k =>
    obtain ⟨a, ha, hfa⟩ := exists_of_findSome?_eq_some hf
    exact List.mem_append_left _ (probeEntry_mem hfa)

theorem gae_row_fields (env : Env) (off : UEOffset) (mgr : ObjectManager)
    (addr : Nat) (it tl : String) (stride i : Nat) :
    (gae_row env off mgr addr it tl stride i).1.offset = natToHex (i * stride)
    ∧ (gae_row env off mgr addr it tl stride i).1.property_name
        = "[" ++ toString i ++ "]" := by
  simp only [gae_row, gae_mk_row]
  repeat' split
  all_goals exact ⟨rfl, rfl⟩

theorem gae_rows_length (env : Env) (off : UEOffset) (addr : Nat)
    (it tl : String) (stride : Nat) :
    ∀ (n i : Nat) (mgr : ObjectManager),
      (gae_rows env off addr it tl stride i n mgr).1.length = n := by
  intro n
  induction n with
  | zero => intro i mgr; rfl
  | succ m ih =>
    intro i mgr
    simp only [gae_rows, List.length_cons]
    rw [ih]

theorem gae_rows_get (env : Env) (off : UEOffset) (addr : Nat)
    (it tl : String) (stride : Nat) :
    ∀ (n i : Nat) (mgr : ObjectManager) (j : Nat) (row : InstancePropertyInfo),
      (gae_rows env off addr it tl stride i n mgr).1.get? j = some row →
      row.offset = natToHex ((i + j) * stride)
      ∧ row.property_name = "[" ++ toString (i + j) ++ "]" := by
  intro n
  induction n with
  | zero => intro i mgr j row h; simp [gae_rows] at h
  | succ m ih =>
    intro i mgr j row h
    simp only [gae_rows] at h
    cases j with
    | zero =>
      simp only [List.get?] at h
      cases h
      simpa using gae_row_fields env off mgr addr it tl stride i
    | succ jj =>
      simp only [List.get?] at h
      have := ih (i + 1) _ jj row h
      rwa [show i + 1 + jj = i + (jj + 1) by omega] at this

/-- C10: `get_array_elements` returns exactly `max 0 (min count 9999)`
rows for every count (clamping large counts, and yielding an empty list
for zero or negative counts with no error); row `i` carries offset
`i * stride`, where the stride is 1 for byte/bool, 4 for int/float and
8 for double/name/str and by default. -/
theorem claim_c10_expand_array :
    ∀ (env : Env) (off : UEOffset) (mgr : ObjectManager) (addr : Nat)
      (inner_type : String) (count : Int),
      (((get_array_elements env off mgr addr inner_type count).1.length : Int)
          = max (min count 9999) 0)
      ∧ (∀ (j : Nat) (row : InstancePropertyInfo),
          (get_array_elements env off mgr addr inner_type count).1.get? j = some row →
            row.offset = natToHex (j * array_stride (strToLower inner_type))
            ∧ row.property_name = "[" ++ toString j ++ "]")
      ∧ (array_stride "byteproperty" = 1 ∧ array_stride "boolproperty" = 1
         ∧ array_stride "intproperty" = 4 ∧ array_stride "floatproperty" = 4
         ∧ array_stride "doubleproperty" = 8 ∧ array_stride "nameproperty" = 8
         ∧ array_stride "strproperty" = 8 ∧ array_stride "objectproperty" = 8) := by
  intro env off mgr addr inner_type count
  refine ⟨?_, ?_, by decide⟩
  · simp only [get_array_elements]
    rw [gae_rows_length]
    exact Int.toNat_eq_max _
  · intro j row h
    simp only [get_array_elements] at h
    have := gae_rows_get env off addr inner_type (strToLower inner_type)
      (array_stride (strToLower inner_type)) _ 0 mgr j row h
    simpa using this

/-- Witness for C10 at `count = 3`, inner type `"IntProperty"`: row 1
carries offset `1 * 4 = 4`. -/
theorem claim_c10_expand_array_witness :
    ((get_array_elements envTrivial UEOffset.default ObjectManager.new 0
        "IntProperty" 3).1.get? 1).map (fun r => r.offset) = some "4" := by
  cases hrow : (get_array_elements envTrivial UEOffset.default ObjectManager.new 0
      "IntProperty" 3).1.get? 1 with
  | none => exact absurd hrow (by decide)
  | some row =>
    have h := (claim_c10_expand_array envTrivial UEOffset.default
      ObjectManager.new 0 "IntProperty" 3).2.1 1 row hrow
    rw [Option.map_some', h.1]
    decide
